import Mathlib

/-!
Verification of the telemetry-transport layer of the pedestrian-detection demo.

The development shallowly embeds the relevant C++ sources:
* `mdump.JSONWriter` / `mdump.Metadumper` — the streaming JSON encoder and the
  per-frame publisher (src/unnamed/part_004, metadump.cpp);
* `mdump.SockState` / `mdump.step` — the queued socket sender and its TCP
  refinement (src/src/results/network.hpp);
* `http.on_header_recvd` / `http.on_body_recvd_body` — the HTTP response
  header/body handling (src/unnamed/part_003, http.cpp) and the response-code
  model (src/src/results/http_util.cpp).

Machine integers are modelled as `Nat`/`Int` with explicit wrap-around where it
matters; fallible or undefined-behaviour paths return `Option`.
-/

namespace mdump

/-- Enclosure kinds of the streaming encoder (`JSONWriter::EnclosureType`). -/
inductive EnclosureType where
  | OBJECT
  | ARRAY
deriving DecidableEq, Repr

/-- Output text of `JSONWriter::emit_open`. -/
def emit_open : EnclosureType → String
  | .OBJECT => "\x7b"
  | .ARRAY => "["

/-- Output text of `JSONWriter::emit_close`. -/
def emit_close : EnclosureType → String
  | .OBJECT => "\x7d"
  | .ARRAY => "]"

/-- State of a `JSONWriter`: the stream written so far (`m_out`) plus the
`m_stack` / `m_first` vectors.  The head of each list is the *back* (top) of the
corresponding C++ vector. -/
structure JSONWriter where
  out : String
  m_stack : List EnclosureType
  m_first : List Bool
deriving DecidableEq, Repr

/-- The constructor `JSONWriter(out, root)`: emits the opening bracket and
pushes `root` on the stack and `true` on the first-element stack. -/
def JSONWriter.init (root : EnclosureType) : JSONWriter :=
  { out := emit_open root, m_stack := [root], m_first := [true] }

/-- Model of `JSONWriter::emit_begin`: a comma is emitted unless the current
container is still awaiting its first element.  `m_first` is never empty at a
call site (the constructor pushes one entry and only the destructor pops all);
the `[]` case mirrors that no defined write happens there. -/
def JSONWriter.emit_begin (j : JSONWriter) : JSONWriter :=
  match j.m_first with
  | true :: rest => { j with m_first := false :: rest }
  | false :: rest => { j with out := j.out ++ ",", m_first := false :: rest }
  | [] => j

/-- Character-level model of `JSONWriter::emit_str`'s loop: only the quote
character is escaped. -/
def escape_chars : List Char → List Char
  | [] => []
  | c :: cs => if c = '"' then '\\' :: '"' :: escape_chars cs else c :: escape_chars cs

/-- Model of `JSONWriter::emit_str`. -/
def JSONWriter.emit_str (j : JSONWriter) (s : String) : JSONWriter :=
  { j with out := j.out ++ "\"" ++ String.mk (escape_chars s.data) ++ "\"" }

/-- Model of `JSONWriter::emit_key`. -/
def JSONWriter.emit_key (j : JSONWriter) (s : String) : JSONWriter :=
  let j := (j.emit_begin).emit_str s
  { j with out := j.out ++ ":" }

/-- Anonymous string value, `operator()(const std::string&)`. -/
def JSONWriter.valStr (j : JSONWriter) (s : String) : JSONWriter :=
  (j.emit_begin).emit_str s

/-- Anonymous integer value, `operator()(int)` / `operator()(long)`; the C++
stream renders the decimal form, which `toString : Int → String` matches. -/
def JSONWriter.valInt (j : JSONWriter) (v : Int) : JSONWriter :=
  let j := j.emit_begin
  { j with out := j.out ++ toString v }

/-- Anonymous bool value, `operator()(bool)`: the source streams the bool with
`m_out << val` and no `boolalpha`, so it prints `1`/`0`. -/
def JSONWriter.valBool (j : JSONWriter) (v : Bool) : JSONWriter :=
  let j := j.emit_begin
  { j with out := j.out ++ (if v then "1" else "0") }

/-- Anonymous floating value, `operator()(double)`.  The decimal text the C++
stream produces for the double is abstracted as the `rendered` argument. -/
def JSONWriter.valDouble (j : JSONWriter) (rendered : String) : JSONWriter :=
  let j := j.emit_begin
  { j with out := j.out ++ rendered }

/-- Keyed string value, `operator()(key, const std::string&)`. -/
def JSONWriter.kvStr (j : JSONWriter) (k v : String) : JSONWriter :=
  (j.emit_key k).emit_str v

/-- Keyed integer value, `operator()(key, int)` / `operator()(key, long)`. -/
def JSONWriter.kvInt (j : JSONWriter) (k : String) (v : Int) : JSONWriter :=
  let j := j.emit_key k
  { j with out := j.out ++ toString v }

/-- Keyed bool value, `operator()(key, bool)`: the source writes the literal
text `true` or `false` here. -/
def JSONWriter.kvBool (j : JSONWriter) (k : String) (v : Bool) : JSONWriter :=
  let j := j.emit_key k
  { j with out := j.out ++ (if v then "true" else "false") }

/-- Keyed floating value, `operator()(key, double)`; rendering abstracted as in
`valDouble`. -/
def JSONWriter.kvDouble (j : JSONWriter) (k : String) (rendered : String) : JSONWriter :=
  let j := j.emit_key k
  { j with out := j.out ++ rendered }

/-- Anonymous `array()`: begin an element, open a bracket, push the stack
entries. -/
def JSONWriter.array (j : JSONWriter) : JSONWriter :=
  let j := j.emit_begin
  { j with out := j.out ++ emit_open .ARRAY,
           m_stack := .ARRAY :: j.m_stack, m_first := true :: j.m_first }

/-- Anonymous `object()`. -/
def JSONWriter.object (j : JSONWriter) : JSONWriter :=
  let j := j.emit_begin
  { j with out := j.out ++ emit_open .OBJECT,
           m_stack := .OBJECT :: j.m_stack, m_first := true :: j.m_first }

/-- Keyed `array(key)`. -/
def JSONWriter.arrayKey (j : JSONWriter) (k : String) : JSONWriter :=
  let j := j.emit_key k
  { j with out := j.out ++ emit_open .ARRAY,
           m_stack := .ARRAY :: j.m_stack, m_first := true :: j.m_first }

/-- Keyed `object(key)`. -/
def JSONWriter.objectKey (j : JSONWriter) (k : String) : JSONWriter :=
  let j := j.emit_key k
  { j with out := j.out ++ emit_open .OBJECT,
           m_stack := .OBJECT :: j.m_stack, m_first := true :: j.m_first }

/-- Model of `JSONWriter::end()`:

    void JSONWriter::end() {
        emit_close(m_stack.back());
        m_stack.pop_back();
    }

The source contains no assertion or check: with an empty `m_stack`,
`m_stack.back()` is `std::vector::back` on an empty vector, which has no
defined behaviour; that branch is therefore modelled as `none`.  Note that the
source pops `m_stack` but not `m_first`. -/
def JSONWriter.jend (j : JSONWriter) : Option JSONWriter :=
  match j.m_stack with
  | [] => none
  | t :: rest => some { j with out := j.out ++ emit_close t, m_stack := rest }

/-- Closing text emitted for a list of still-open containers, innermost
first. -/
def close_all : List EnclosureType → String
  | [] => ""
  | t :: rest => emit_close t ++ close_all rest

/-- Model of the destructor `~JSONWriter()`: close every still-open container
in LIFO order, then write the final newline; returns the complete stream
contents. -/
def JSONWriter.destructed (j : JSONWriter) : String :=
  j.out ++ close_all j.m_stack ++ "\n"

/-- Axis-aligned rectangle following `cv::Rect` (x, y, width, height). -/
structure Rect where
  x : Int
  y : Int
  width : Int
  height : Int
deriving DecidableEq, Repr

/-- The x coordinate of `cv::Rect::tl()`. -/
def Rect.tl_x (r : Rect) : Int := r.x

/-- The y coordinate of `cv::Rect::tl()`. -/
def Rect.tl_y (r : Rect) : Int := r.y

/-- The x coordinate of `cv::Rect::br()` (`x + width`). -/
def Rect.br_x (r : Rect) : Int := r.x + r.width

/-- The y coordinate of `cv::Rect::br()` (`y + height`). -/
def Rect.br_y (r : Rect) : Int := r.y + r.height

/-- A detection bounding box (`ml::BoundingBox`), as used by
`Metadumper::write_boundboxes` and the tracker code: an identity, a tag (each
with 0 meaning "absent"), and a rectangle. -/
structure BoundingBox where
  id : Int
  tag : Int
  bounds : Rect
deriving DecidableEq, Repr

/-- `ml::BoundingBoxesResult`: the list of boxes for one frame. -/
structure BoundingBoxesResult where
  boxes : List BoundingBox
deriving DecidableEq, Repr

/-- The tagged union `ml::AlgorithmResult`, restricted to the kinds the dumper
distinguishes: bounding-box sets (`RT_BOUNDING_BOXES`) and everything else. -/
inductive AlgorithmResult where
  | boundingBoxes (res : BoundingBoxesResult)
  | otherKind
deriving DecidableEq, Repr

/-- Body of the per-box loop of `Metadumper::write_boundboxes`. -/
def write_box (json : JSONWriter) (box : BoundingBox) : Option JSONWriter := do
  let json := json.object
  let json := if box.id ≠ 0 then json.kvInt "id" box.id else json
  let json := if box.tag ≠ 0 then json.kvInt "tag" box.tag else json
  let json := json.objectKey "topleft"
  let json := json.kvInt "x" box.bounds.tl_x
  let json := json.kvInt "y" box.bounds.tl_y
  let json ← json.jend
  let json := json.objectKey "btmright"
  let json := json.kvInt "x" box.bounds.br_x
  let json := json.kvInt "y" box.bounds.br_y
  let json ← json.jend
  let json := json.kvInt "area" (box.bounds.width * box.bounds.height)
  json.jend

/-- Model of `Metadumper::write_boundboxes`. -/
def write_boundboxes (json : JSONWriter) (res : BoundingBoxesResult) : Option JSONWriter := do
  let json := json.object
  let json := json.kvStr "type" "bounding-boxes"
  let json := json.arrayKey "boxes"
  let json ← res.boxes.foldlM write_box json
  let json ← json.jend
  json.jend

/-- Model of `Metadumper::write_result`: dispatch on the result kind; unknown
kinds are skipped (the `default: break;` branch). -/
def write_result (json : JSONWriter) (res : AlgorithmResult) : Option JSONWriter :=
  match res with
  | .boundingBoxes r => write_boundboxes json r
  | .otherKind => some json

/-- Model of `Metadumper::accept`: builds the per-frame document and returns
the serialized text handed to `m_tgt->write` (the writer is destroyed before
the write, closing the still-open containers).  The two `double` metrics carry
their stream rendering as strings; the `frame` index parameter is unused in the
source. -/
def Metadumper.accept (res : List AlgorithmResult) (fps : Int) (_frame : Int)
    (fpga : Bool) (cpu_use framerate : String) (fr_time : Int) : Option String := do
  let json := JSONWriter.init .OBJECT
  let json := json.objectKey "frame"
  let json := json.kvInt "fps" fps
  let json := json.kvBool "fpga" fpga
  let json := json.objectKey "perf"
  let json := json.kvDouble "cpu_use" cpu_use
  let json := json.kvDouble "fps" framerate
  let json := json.kvInt "fr_time" fr_time
  let json ← json.jend
  let json := json.arrayKey "results"
  let json ← res.foldlM write_result json
  let json ← json.jend
  pure json.destructed

end mdump

namespace json

/-- A parsed JSON value, used to state what the serialized document contains
(the encoder itself never materializes such a tree). -/
inductive JVal where
  | jstr (s : String)
  | jnum (raw : String)
  | jbool (b : Bool)
  | jobj (fields : List (String × JVal))
  | jarr (elems : List JVal)
deriving Repr

/-- Characters that may continue a JSON number token. -/
def isNumChar (c : Char) : Bool :=
  c.isDigit || c = '-' || c = '+' || c = '.' || c = 'e' || c = 'E'

/-- Parse a string literal body (opening quote already consumed), undoing the
single escape (`\"`) the encoder produces. -/
def parseStringLit : List Char → Option (List Char × List Char)
  | [] => none
  | '\\' :: '"' :: rest => (parseStringLit rest).map (fun p => ('"' :: p.1, p.2))
  | '"' :: rest => some ([], rest)
  | c :: rest => (parseStringLit rest).map (fun p => (c :: p.1, p.2))

mutual

/-- Fuel-based parser for a single JSON value. -/
def parseVal : Nat → List Char → Option (JVal × List Char)
  | 0, _ => none
  | _ + 1, [] => none
  | fuel + 1, c :: rest =>
    if c = '"' then
      (parseStringLit rest).map (fun p => (.jstr (String.mk p.1), p.2))
    else if c = '{' then
      match rest with
      | '}' :: r => some (.jobj [], r)
      | _ => (parseFields fuel rest).map (fun p => (.jobj p.1, p.2))
    else if c = '[' then
      match rest with
      | ']' :: r => some (.jarr [], r)
      | _ => (parseElems fuel rest).map (fun p => (.jarr p.1, p.2))
    else if c = 't' then
      match rest with
      | 'r' :: 'u' :: 'e' :: r => some (.jbool true, r)
      | _ => none
    else if c = 'f' then
      match rest with
      | 'a' :: 'l' :: 's' :: 'e' :: r => some (.jbool false, r)
      | _ => none
    else if isNumChar c then
      some (.jnum (String.mk (c :: rest.takeWhile isNumChar)), rest.dropWhile isNumChar)
    else
      none

/-- Fuel-based parser for the fields of a nonempty JSON object. -/
def parseFields : Nat → List Char → Option (List (String × JVal) × List Char)
  | 0, _ => none
  | fuel + 1, l =>
    match l with
    | '"' :: rest =>
      match parseStringLit rest with
      | some (k, ':' :: rest2) =>
        match parseVal fuel rest2 with
        | some (v, ',' :: rest3) =>
          (parseFields fuel rest3).map (fun p => ((String.mk k, v) :: p.1, p.2))
        | some (v, '}' :: rest3) => some ([(String.mk k, v)], rest3)
        | _ => none
      | _ => none
    | _ => none

/-- Fuel-based parser for the elements of a nonempty JSON array. -/
def parseElems : Nat → List Char → Option (List JVal × List Char)
  | 0, _ => none
  | fuel + 1, l =>
    match parseVal fuel l with
    | some (v, ',' :: rest) => (parseElems fuel rest).map (fun p => (v :: p.1, p.2))
    | some (v, ']' :: rest) => some ([v], rest)
    | _ => none

end

/-- Parse a complete document; trailing newline or spaces are permitted. -/
def parseDocument (s : String) : Option JVal :=
  match parseVal (s.length + 1) s.data with
  | some (v, rest) => if rest.all (fun c => c = '\n' || c = ' ') then some v else none
  | none => none

/-- Object field lookup. -/
def JVal.lookupKey : JVal → String → Option JVal
  | .jobj fields, k => fields.lookup k
  | _, _ => none

/-- Key presence in an object. -/
def JVal.hasKey (v : JVal) (k : String) : Bool :=
  (v.lookupKey k).isSome

/-- Array indexing. -/
def JVal.index : JVal → Nat → Option JVal
  | .jarr es, n => es.get? n
  | _, _ => none

/-- Digit-string evaluation used to read integers back out of number tokens. -/
def digitsToNat : List Char → Nat → Option Nat
  | [], acc => some acc
  | c :: cs, acc =>
    if c.isDigit then digitsToNat cs (acc * 10 + (c.toNat - 48)) else none

/-- Integer reading of a (non-negative) number token. -/
def JVal.asInt : JVal → Option Int
  | .jnum raw =>
    match raw.data with
    | [] => none
    | l => (digitsToNat l 0).map Int.ofNat
  | _ => none

/-- Whether a parsed value is an object. -/
def JVal.isObj : JVal → Bool
  | .jobj _ => true
  | _ => false

/-- Path helper: field `k` of the top-level `frame` object. -/
def framePath (doc : JVal) (k : String) : Option JVal :=
  (doc.lookupKey "frame").bind (fun f => f.lookupKey k)

/-- Path helper: `frame.results[0].boxes[0]`. -/
def firstBox (doc : JVal) : Option JVal :=
  ((((framePath doc "results").bind (fun r => r.index 0)).bind
      (fun r => r.lookupKey "boxes")).bind (fun b => b.index 0))

end json

set_option maxRecDepth 8192 in
/-- C1: with metrics `fps=15, fpga=false, cpu_use=12.5, framerate=14.8,
fr_time=67` and one bounding-box result whose box has `id=0`, `tag=0`, top-left
`(10,20)` and bottom-right `(50,80)` (so `cv::Rect` width 40, height 60), the
document `Metadumper::accept` hands to the transport parses as a JSON object in
which `frame.fps = 15`, `frame.fpga = false`, the first box of
`frame.results[0].boxes` has neither an `id` nor a `tag` key, and its `area`
equals 2400. -/
theorem C1_accept_document :
    ((mdump.Metadumper.accept
        [.boundingBoxes ⟨[⟨0, 0, ⟨10, 20, 40, 60⟩⟩]⟩] 15 0 false "12.5" "14.8" 67).bind
      json.parseDocument).map (fun doc =>
        (doc.isObj,
         (json.framePath doc "fps").bind json.JVal.asInt,
         (json.framePath doc "fpga").map (fun v => v matches json.JVal.jbool false),
         (json.firstBox doc).map (fun b => (b.hasKey "id", b.hasKey "tag")),
         (json.firstBox doc).bind (fun b => (b.lookupKey "area").bind json.JVal.asInt)))
    = some (true, some 15, some true, some (false, false), some 2400) := by
  rfl

/-- C9: `JSONWriter::end` contains no assertion.  Calling `end` once more than
containers were opened (here: open the root object, then `end` twice) reaches
`m_stack.back()` on an empty vector, which has no defined behaviour in the
source (modelled as `none`) instead of the fatal assertion the specification
requires. -/
theorem C9_end_on_empty_stack_unchecked :
    ((mdump.JSONWriter.init .OBJECT).jend).bind mdump.JSONWriter.jend = none := by
  rfl

namespace http

/-- The classes of `ResponseCode::Type`. -/
inductive RCType where
  | INFORMATIONAL
  | SUCCESS
  | REDIRECTION
  | CLIENT_ERROR
  | SERVER_ERROR
  | UNKNOWN
deriving DecidableEq, Repr

/-- `ResponseCode`: the three digit bytes of the status code (`unsigned char
d[3]`, so values in `[0, 256)`). -/
structure ResponseCode where
  d0 : Nat
  d1 : Nat
  d2 : Nat
deriving DecidableEq, Repr

/-- Model of `ResponseCode::type`: a switch on the first digit. -/
def ResponseCode.type (c : ResponseCode) : RCType :=
  if c.d0 = 1 then .INFORMATIONAL
  else if c.d0 = 2 then .SUCCESS
  else if c.d0 = 3 then .REDIRECTION
  else if c.d0 = 4 then .CLIENT_ERROR
  else if c.d0 = 5 then .SERVER_ERROR
  else .UNKNOWN

/-- Model of `ResponseCode::as_int`. -/
def ResponseCode.as_int (c : ResponseCode) : Nat :=
  100 * c.d0 + 10 * c.d1 + c.d2

/-- The part of `Response` that `operator bool` reads (`m_code`); request,
headers and body do not enter that operator. -/
structure Response where
  code : ResponseCode
deriving DecidableEq, Repr

/-- Model of `Response::operator bool`:
`return m_code.type() == ResponseCode::SUCCESS;`. -/
def Response.boolValue (r : Response) : Bool :=
  decide (r.code.type = RCType.SUCCESS)

/-- Lower-casing applied by `Headers::set` / `Headers::get` to keys. -/
def lower (s : String) : String :=
  String.mk (s.data.map Char.toLower)

/-- Model of `Headers::set` on an association list with already-normalized
keys: replace the value if the key exists, insert otherwise. -/
def hdrs_set (m : List (String × String)) (k v : String) : List (String × String) :=
  let k := lower k
  if (m.lookup k).isSome then m.map (fun kv => if kv.1 = k then (k, v) else kv)
  else m ++ [(k, v)]

/-- Model of `Headers::get`. -/
def hdrs_get (m : List (String × String)) (k : String) : Option String :=
  m.lookup (lower k)

/-- The default header set placed by the `Headers` constructor. -/
def default_headers : List (String × String) :=
  [("user-agent", "pdfw-httptarget/1.0")]

/-- Model of the line-splitting loop at the top of
`HTTPConnection::on_header_recvd`.  The source iterates over `m_temp_buffer`
(the buffer holding the request bytes that were previously *sent*), appending
each character to `temp` — a string initialized with the entire *received*
data — and pushing `temp` as a line at each CRLF *of the request bytes*.
The first argument is the request-byte list being iterated; `temp` carries the
accumulator (initially the received text); lone `0x0d` at the very end of the
buffer would dereference `end()` in the source and does not occur for the
requests this client emits (they end in CRLF CRLF). -/
def split_lines : List Char → List Char → List (List Char) → List (List Char)
  | [], temp, lines => if temp.isEmpty then lines else lines ++ [temp]
  | '\r' :: '\n' :: rest, temp, lines => split_lines rest [] (lines ++ [temp])
  | c :: rest, temp, lines => split_lines rest (temp ++ [c]) lines

/-- Status-line version test (lines 170-171 of the connection source): the
first nine characters must be `HTTP/1.1 ` or `HTTP/1.0 `
(`std::string::compare(0, 9, ...) == 0`). -/
def statusVersionOk (line0 : List Char) : Bool :=
  line0.take 9 = "HTTP/1.1 ".data || line0.take 9 = "HTTP/1.0 ".data

/-- The `unsigned char` value of `c - '0'`. -/
def ucSub0 (c : Char) : Nat :=
  (c.toNat + 256 - 48) % 256

/-- Model of the status-digit extraction and check (with the source's
condition `d[0] > 9 && d[1] > 9 && d[2] > 9` for rejection: the line is
rejected only when *all three* characters are non-digits).  Indexing past the
line end yields the NUL character as `std::string::operator[]` does at
`size()`. -/
def statusDigits (line0 : List Char) : Option ResponseCode :=
  let d0 := ucSub0 (line0.getD 9 (Char.ofNat 0))
  let d1 := ucSub0 (line0.getD 10 (Char.ofNat 0))
  let d2 := ucSub0 (line0.getD 11 (Char.ofNat 0))
  if d0 > 9 ∧ d1 > 9 ∧ d2 > 9 then none else some ⟨d0, d1, d2⟩

/-- Model of the header-processing loop: stop at the first empty line; a line
without a colon fails the request; otherwise split at the first colon, skip the
spaces after it, and `Headers::set` the pair (which lower-cases the key). -/
def process_headers : List (List Char) → List (String × String) →
    Option (List (String × String))
  | [], hdrs => some hdrs
  | l :: rest, hdrs =>
    if l.isEmpty then some hdrs
    else
      match l.findIdx? (fun c => c = ':') with
      | none => none
      | some idx =>
        let key := l.take idx
        let val := (l.drop (idx + 1)).dropWhile (fun c => c = ' ')
        process_headers rest (hdrs_set hdrs (String.mk key) (String.mk val))

/-- Model of the `strtoul(ct_len, &p, 10)` call followed by the `*p != 0`
check: the value is accepted only when the whole string is the digit run
consumed by `strtoul` (an empty string parses as 0 with `*p == 0`). -/
def parse_strtoul (s : String) : Option Nat :=
  let digits := s.data.takeWhile Char.isDigit
  let rest := s.data.dropWhile Char.isDigit
  if rest.isEmpty then (json.digitsToNat digits 0) else none

/-- How the body read is framed after the headers are processed. -/
inductive Framing where
  | exact (len : Nat)
  | untilClose
deriving DecidableEq, Repr

/-- Outcome of `HTTPConnection::on_header_recvd` in the no-transport-error
case. -/
inductive HeaderOutcome where
  | failRequest
  | readBody (code : ResponseCode) (hdrs : List (String × String))
      (httpVersion : Int) (fr : Framing)
deriving DecidableEq, Repr

/-- Model of `HTTPConnection::on_header_recvd` (success `ec`): split lines (see
`split_lines` for what the source actually iterates over), validate the status
line, process the header lines into a `Headers` object (which starts from the
constructor's defaults), then choose the body framing from the parsed
`Content-Length`, if any.  `int http_version = 0;` is reassigned only inside
the version-mismatch branch, which returns `failRequest`; on every path that
reaches `readBody` it is still 0. -/
def on_header_recvd (recvData : String) (m_temp_buffer : List Char) : HeaderOutcome :=
  let lines := split_lines m_temp_buffer recvData.data []
  match lines with
  | [] => .failRequest
  | line0 :: rest =>
    if ¬statusVersionOk line0 then .failRequest
    else
      match statusDigits line0 with
      | none => .failRequest
      | some code =>
        match process_headers rest default_headers with
        | none => .failRequest
        | some hdrs =>
          match hdrs_get hdrs "Content-Length" with
          | some v =>
            match parse_strtoul v with
            | some len => .readBody code hdrs 0 (.exact len)
            | none => .failRequest
          | none => .readBody code hdrs 0 .untilClose

/-- `std::vector::reserve` changes capacity only; the vector's size — which is
what `asio::buffer(bodyv)` sees — is unchanged. -/
def vector_reserve_size (size : Nat) : Nat := size

/-- `asio::buffer_copy` transfers `min(dst size, src size)` bytes. -/
def buffer_copy (dstSize : Nat) (src : List Nat) : List Nat :=
  src.take dstSize

/-- Model of the body population in `HTTPConnection::on_body_recvd` (success
`ec`): the response body vector is freshly constructed (size 0), `reserve`d to
the received size, and then `buffer_copy`ed into — so the copy length is
`min(0, received)`. -/
def on_body_recvd_body (recvd : List Nat) : List Nat :=
  buffer_copy (vector_reserve_size 0) recvd

/-- Model of the keep-alive test at the end of `on_body_recvd`:
`http_version == 11 && headers.get("connection").value_or("close") ==
"Keep-Alive"`; when false, the socket is closed and the backlog failed. -/
def persistDecision (httpVersion : Int) (hdrs : List (String × String)) : Bool :=
  httpVersion = 11 && ((hdrs_get hdrs "connection").getD "close") = "Keep-Alive"

/-- A handler argument at the `HTTPTarget::get_conn` callback boundary. -/
inductive HandlerArg where
  | errNull
  | okConn
deriving DecidableEq, Repr

/-- Model of the handler invocations `HTTPTarget::get_conn` performs, indexed
by the branch taken: a keep-alive pool hit calls back immediately with the
cached connection; otherwise a resolve error hits the `printf; dispose_conn;
return;` branch (the `// TODO: handle error` path), which never invokes the
handler; a connect error invokes it with `(e, nullptr)`; success invokes it
with the new connection. -/
def get_conn_calls (keepalive poolHit resolveOk connectOk : Bool) : List HandlerArg :=
  if keepalive && poolHit then [.okConn]
  else if !resolveOk then []
  else if !connectOk then [.errNull]
  else [.okConn]

/-- What reaches the caller of `HTTPTarget::submit`: the wrapper passed to
`get_conn` turns an error into `handler(nullptr)` and otherwise issues the
request on the connection. -/
inductive SubmitCall where
  | handlerNull
  | requestIssued
deriving DecidableEq, Repr

/-- Model of `HTTPTarget::submit`'s completion behaviour as a function of the
branch `get_conn` takes. -/
def submit_calls (keepalive poolHit resolveOk connectOk : Bool) : List SubmitCall :=
  (get_conn_calls keepalive poolHit resolveOk connectOk).map
    (fun a => match a with
      | .errNull => .handlerNull
      | .okConn => .requestIssued)

end http

/-- C10: a `Response` evaluates to true in boolean context exactly when the
first digit of its status code is 2 (the `SUCCESS` class); every other class —
informational, redirection, client error, server error, unknown — yields
false. -/
theorem C10_response_bool_iff_2xx (r : http.Response) :
    r.boolValue = true ↔ r.code.d0 = 2 := by
  rcases r with ⟨⟨d0, d1, d2⟩⟩
  simp only [http.Response.boolValue, http.ResponseCode.type, decide_eq_true_eq]
  split_ifs with h1 h2 h3 h4 h5 <;> simp_all

/-- Closed witness for C10 at status code 204. -/
theorem C10_response_bool_iff_2xx_witness :
    (http.Response.mk ⟨2, 0, 4⟩).boolValue = true ↔ (2 : Nat) = 2 :=
  C10_response_bool_iff_2xx ⟨⟨2, 0, 4⟩⟩

/-- C4 (divergence): for the response `HTTP/1.1 200 OK` with
`Content-Length: 5` — the request buffer holding the POST that this client
previously sent — `on_header_recvd` parses the *request's* header lines (the
loop iterates `m_temp_buffer`, the send buffer), so the parsed header set is
just the default `user-agent` and the framing chosen is `untilClose`, not
`transfer_exactly(5)`; moreover the body population of `on_body_recvd` copies
`min(0, n)` bytes (the vector is only `reserve`d, never resized), so the five
body bytes `Hello` yield an empty body. -/
theorem C4_content_length_not_honoured :
    http.on_header_recvd "HTTP/1.1 200 OK\r\nContent-Length: 5\r\n\r\n"
        "POST / HTTP/1.1\r\nuser-agent: pdfw-httptarget/1.0\r\n\r\n".data
      = http.HeaderOutcome.readBody ⟨2, 0, 0⟩ [("user-agent", "pdfw-httptarget/1.0")]
          0 http.Framing.untilClose ∧
    http.on_body_recvd_body [72, 101, 108, 108, 111] = [] := by
  constructor
  · rfl
  · rfl

/-- C5 (divergence): no path of `on_header_recvd` that reaches the body read
carries `http_version = 11` (the assignment sits in the version-mismatch
failure branch of the source, so the success path keeps the initial 0), hence
the keep-alive condition of `on_body_recvd` is false and the connection never
returns to Idle — even for an `HTTP/1.1 200 OK` response that carries
`Connection: Keep-Alive`, as the closed conjunct evaluates. -/
theorem C5_connection_never_persists :
    (∀ recv temp code hdrs v fr,
        http.on_header_recvd recv temp = http.HeaderOutcome.readBody code hdrs v fr →
        v = 0 ∧ http.persistDecision v hdrs = false) ∧
    http.on_header_recvd "HTTP/1.1 200 OK\r\nConnection: Keep-Alive\r\n\r\n"
        "POST / HTTP/1.1\r\nuser-agent: pdfw-httptarget/1.0\r\n\r\n".data
      = http.HeaderOutcome.readBody ⟨2, 0, 0⟩ [("user-agent", "pdfw-httptarget/1.0")]
          0 http.Framing.untilClose := by
  constructor
  · intro recv temp code hdrs v fr h
    simp only [http.on_header_recvd] at h
    repeat' split at h
    all_goals cases h
    all_goals exact ⟨rfl, by simp [http.persistDecision]⟩
  · rfl

/-- Closed witness for C5's universally quantified conjunct, discharged at the
concrete exchange of its second conjunct. -/
theorem C5_connection_never_persists_witness :
    (0 : Int) = 0 ∧
    http.persistDecision 0 [("user-agent", "pdfw-httptarget/1.0")] = false :=
  C5_connection_never_persists.1 "HTTP/1.1 200 OK\r\nConnection: Keep-Alive\r\n\r\n"
    "POST / HTTP/1.1\r\nuser-agent: pdfw-httptarget/1.0\r\n\r\n".data
    ⟨2, 0, 0⟩ [("user-agent", "pdfw-httptarget/1.0")] 0 http.Framing.untilClose
    C5_connection_never_persists.2

/-- C6 (divergence): when DNS resolution fails, `get_conn` takes the
`printf; dispose_conn; return;` branch and the caller's completion handler is
never invoked (first four conjuncts, over both keep-alive settings and both
connect outcomes); on a connect failure the handler *is* invoked with a null
response (last conjunct). -/
theorem C6_dns_failure_drops_handler :
    http.submit_calls true false false true = [] ∧
    http.submit_calls true false false false = [] ∧
    http.submit_calls false false false true = [] ∧
    http.submit_calls false false false false = [] ∧
    http.submit_calls true false true false = [http.SubmitCall.handlerNull] := by
  decide

namespace mdump

/-- A queued byte buffer. -/
abbrev Buf := List Nat

/-- State of a `SocketTarget` (plus the `TCPTarget` connection flag and ghost
logs).  `queue` is `m_queue` (head = front), `pending` is `m_pending`,
`expiry` is the absolute expiry time of `m_retry_timer` in milliseconds,
`connected`/`connecting` model `TCPTarget::m_connected` and an outstanding
`async_connect` (a `UDPTarget` keeps `connected = true` forever).  `attempts`
logs every transmission started by `attempt_send` (time and buffer), `comps`
counts completions observed, `connects` counts `async_connect` initiations and
`enqd` logs every buffer passed to `enqueue_send` — the last four are ghost
observers that no transition reads. -/
structure SockState where
  queue : List Buf
  pending : Bool
  expiry : Nat
  connected : Bool
  connecting : Bool
  attempts : List (Nat × Buf)
  comps : Nat
  connects : Nat
  enqd : List Buf
deriving DecidableEq, Repr

/-- Events delivered to the sender, each with its absolute time in ms:
`enq` is a caller's `enqueue_send`; `completeOk`/`completeFail` are the
transport completion callbacks routing to `on_transmit_succeed` /
`on_transmit_fail`; `completeFailConn` is the TCP completion for a
connection-reset / broken-pipe error (which additionally flips `m_connected`
and starts a reconnect before `on_transmit_fail`); `timerFire` is the retry
timer handler (`perform_attempt`); `connectOk` is `handle_connect_result` with
a success code. -/
inductive Ev where
  | enq (t : Nat) (b : Buf)
  | completeOk (t : Nat)
  | completeFail (t : Nat)
  | completeFailConn (t : Nat)
  | timerFire (t : Nat)
  | connectOk (t : Nat)
deriving DecidableEq, Repr

/-- The timestamp of an event. -/
def Ev.time : Ev → Nat
  | .enq t _ => t
  | .completeOk t => t
  | .completeFail t => t
  | .completeFailConn t => t
  | .timerFire t => t
  | .connectOk t => t

/-- Model of `SocketTarget::perform_attempt`: under the pending and queue
locks, do nothing if a send is pending or the queue is empty; otherwise call
`attempt_send` on the front buffer.  `TCPTarget::attempt_send` returns false
while not connected (no transmission); on false the retry timer is armed for
one second (if it already expired) — on true the transmission is started and
`m_pending` is set. -/
def perform_attempt (t : Nat) (s : SockState) : SockState :=
  if s.pending then s
  else
    match s.queue with
    | [] => s
    | b :: _ =>
      if s.connected then
        { s with pending := true, attempts := s.attempts ++ [(t, b)] }
      else
        { s with expiry := if s.expiry < t then t + 1000 else s.expiry }

/-- One transition of the sender.  `enq` clones the buffer, appends it under
the queue lock and calls `perform_attempt`; `completeOk` is
`on_transmit_succeed` (clear pending, pop the front, try the next);
`completeFail` / `completeFailConn` are `on_transmit_fail` (clear pending, arm
the retry timer for 250 ms if it already expired — the connection-fatal
variant first clears `m_connected` and starts an `async_connect`);
`timerFire` runs `perform_attempt`; `connectOk` sets `m_connected` and returns
without attempting anything. -/
def step (s : SockState) : Ev → SockState
  | .enq t b => perform_attempt t { s with queue := s.queue ++ [b], enqd := s.enqd ++ [b] }
  | .completeOk t =>
    perform_attempt t
      { s with pending := false, queue := s.queue.tail, comps := s.comps + 1 }
  | .completeFail t =>
    { s with pending := false, comps := s.comps + 1,
             expiry := if s.expiry < t then t + 250 else s.expiry }
  | .completeFailConn t =>
    { s with pending := false, comps := s.comps + 1,
             connected := false, connecting := true, connects := s.connects + 1,
             expiry := if s.expiry < t then t + 250 else s.expiry }
  | .timerFire t => perform_attempt t s
  | .connectOk _ => { s with connected := true, connecting := false }

/-- Run a list of events. -/
def run (s : SockState) (es : List Ev) : SockState :=
  es.foldl step s

/-- Whether one event may fire in a state: completions require an attempt in
flight (`m_pending`), the timer handler does not run before the armed expiry,
and a connect result needs an outstanding `async_connect`. -/
def evValid (s : SockState) : Ev → Bool
  | .enq _ _ => true
  | .completeOk _ => s.pending
  | .completeFail _ => s.pending
  | .completeFailConn _ => s.pending
  | .timerFire t => s.expiry ≤ t
  | .connectOk _ => s.connecting

/-- Validity of an event list from a state, with non-decreasing timestamps
bounded below by `t0`. -/
def validFrom : Nat → SockState → List Ev → Bool
  | _, _, [] => true
  | t0, s, e :: es =>
    decide (t0 ≤ e.time) && evValid s e && validFrom e.time (step s e) es

/-- Events possible when the transport reports success for every attempt:
enqueues, success completions and (vacuous) timer fires. -/
def successEv : Ev → Bool
  | .enq _ _ => true
  | .completeOk _ => true
  | .timerFire _ => true
  | _ => false

/-- Events other than `enq` (used for the backoff statement, where no fresh
enqueue intervenes). -/
def nonEnq : Ev → Bool
  | .enq _ _ => false
  | _ => true

/-- Initial state of a `UDPTarget` (or any sender whose `attempt_send` always
starts a transmission): empty queue, nothing pending, retry timer expired at
construction time 0. -/
def initUDP : SockState :=
  { queue := [], pending := false, expiry := 0, connected := true,
    connecting := false, attempts := [], comps := 0, connects := 0, enqd := [] }

/-- Initial state of a `TCPTarget`: as above but not yet connected, with the
constructor's `async_connect` outstanding. -/
def initTCP : SockState :=
  { initUDP with connected := false, connecting := true, connects := 1 }

/-- The contribution of the pending flag to the attempt count. -/
def pendBit (s : SockState) : Nat := cond s.pending 1 0

lemma run_nil (s : SockState) : run s [] = s := rfl

lemma run_cons (s : SockState) (e : Ev) (es : List Ev) :
    run s (e :: es) = run (step s e) es := rfl

lemma perform_attempt_or (t : Nat) (s : SockState) :
    perform_attempt t s = s ∨
    (∃ b r, s.queue = b :: r ∧ s.pending = false ∧ s.connected = true ∧
      perform_attempt t s =
        { s with pending := true, attempts := s.attempts ++ [(t, b)] }) ∨
    (∃ b r, s.queue = b :: r ∧ s.pending = false ∧ s.connected = false ∧
      perform_attempt t s =
        { s with expiry := if s.expiry < t then t + 1000 else s.expiry }) := by
  unfold perform_attempt
  split
  · exact Or.inl rfl
  · next hp =>
    split
    · exact Or.inl rfl
    · next b r hq =>
      split
      · next hc => exact Or.inr (Or.inl ⟨b, r, hq, by simpa using hp, hc, rfl⟩)
      · next hc =>
        exact Or.inr (Or.inr ⟨b, r, hq, by simpa using hp,
          by simpa using hc, rfl⟩)

lemma step_attempts_or (s : SockState) (e : Ev) :
    (step s e).attempts = s.attempts ∨
    ∃ b, (step s e).attempts = s.attempts ++ [(e.time, b)] := by
  cases e with
  | enq t b =>
    rcases perform_attempt_or t
        { s with queue := s.queue ++ [b], enqd := s.enqd ++ [b] } with h | h | h
    · exact Or.inl (by simp [step, h])
    · obtain ⟨b', r, _, _, _, h⟩ := h
      exact Or.inr ⟨b', by simp [step, h, Ev.time]⟩
    · obtain ⟨b', r, _, _, _, h⟩ := h
      exact Or.inl (by simp [step, h])
  | completeOk t =>
    rcases perform_attempt_or t
        { s with pending := false, queue := s.queue.tail, comps := s.comps + 1 } with
      h | h | h
    · exact Or.inl (by simp [step, h])
    · obtain ⟨b', r, _, _, _, h⟩ := h
      exact Or.inr ⟨b', by simp [step, h, Ev.time]⟩
    · obtain ⟨b', r, _, _, _, h⟩ := h
      exact Or.inl (by simp [step, h])
  | completeFail t => exact Or.inl rfl
  | completeFailConn t => exact Or.inl rfl
  | timerFire t =>
    rcases perform_attempt_or t s with h | h | h
    · exact Or.inl (by simp [step, h])
    · obtain ⟨b', r, _, _, _, h⟩ := h
      exact Or.inr ⟨b', by simp [step, h, Ev.time]⟩
    · obtain ⟨b', r, _, _, _, h⟩ := h
      exact Or.inl (by simp [step, h])
  | connectOk t => exact Or.inl rfl

lemma run_attempts_extend : ∀ (es : List Ev) (s : SockState),
    ∃ ext, (run s es).attempts = s.attempts ++ ext
  | [], s => ⟨[], by simp [run_nil]⟩
  | e :: es, s => by
    obtain ⟨ext, hx⟩ := run_attempts_extend es (step s e)
    rcases step_attempts_or s e with h | ⟨b, h⟩
    · exact ⟨ext, by rw [run_cons, hx, h]⟩
    · exact ⟨(e.time, b) :: ext, by rw [run_cons, hx, h]; simp⟩

/-- Invariant of a sender whose transport always reports success (every
completion is `completeOk`): the enqueue log splits into a consumed part
`done` (one entry per observed completion) followed by the live queue; the
attempt log is exactly `done` plus, when a send is in flight, the queue head;
and the pending flag tracks queue emptiness. -/
def SuccInv (s : SockState) : Prop :=
  s.connected = true ∧
  (∃ done : List Buf,
    s.enqd = done ++ s.queue ∧
    done.length = s.comps ∧
    s.attempts.map Prod.snd = done ++ s.queue.take (pendBit s) ∧
    s.attempts.length = s.comps + pendBit s) ∧
  (s.pending = false → s.queue = []) ∧
  (s.pending = true → s.queue ≠ [])

lemma succInv_init : SuccInv initUDP := by
  refine ⟨rfl, ⟨[], rfl, rfl, rfl, rfl⟩, fun _ => rfl, fun h => by simp [initUDP] at h⟩

lemma succInv_step (s : SockState) (e : Ev) (he : successEv e = true)
    (hv : evValid s e = true) (hI : SuccInv s) : SuccInv (step s e) := by
  obtain ⟨hconn, ⟨done, hE, hdl, hA, hAl⟩, hqe, hqne⟩ := hI
  cases e with
  | completeFail t => simp [successEv] at he
  | completeFailConn t => simp [successEv] at he
  | connectOk t => simp [successEv] at he
  | enq t b =>
    by_cases hp : s.pending
    · -- a send is in flight: the new buffer is only queued
      obtain ⟨x, q, hq⟩ : ∃ x q, s.queue = x :: q := by
        rcases hqex : s.queue with _ | ⟨x, q⟩
        · exact absurd hqex (hqne hp)
        · exact ⟨x, q, rfl⟩
      have hstep : step s (.enq t b) =
          { s with queue := s.queue ++ [b], enqd := s.enqd ++ [b] } := by
        simp [step, perform_attempt, hp]
      rw [hstep]
      refine ⟨hconn, ⟨done, ?_, hdl, ?_, ?_⟩, ?_, ?_⟩
      · simp [hE]
      · simp only [pendBit, hp, cond_true] at hA ⊢
        simp [hA, hq]
      · simpa [pendBit, hp] using hAl
      · intro h; simp [hp] at h
      · intro _; simp
    · -- idle: the queue was empty, so the new buffer is attempted at once
      have hq : s.queue = [] := hqe (by simpa using hp)
      have hE' : s.enqd = done := by simpa [hq] using hE
      have hstep : step s (.enq t b) =
          { s with queue := [b], enqd := s.enqd ++ [b], pending := true,
                   attempts := s.attempts ++ [(t, b)] } := by
        simp [step, perform_attempt, hp, hq, hconn]
      rw [hstep]
      refine ⟨hconn, ⟨done, ?_, hdl, ?_, ?_⟩, ?_, ?_⟩
      · simp [hE']
      · simp only [pendBit, hp, cond_false, List.take_zero, List.append_nil] at hA
        simp [pendBit, hA]
      · simp only [pendBit, hp, cond_false] at hAl
        simp [pendBit, hAl]
      · intro h; simp at h
      · intro _; simp
  | completeOk t =>
    have hp : s.pending = true := by simpa [evValid] using hv
    obtain ⟨x, q, hq⟩ : ∃ x q, s.queue = x :: q := by
      rcases hqex : s.queue with _ | ⟨x, q⟩
      · exact absurd hqex (hqne hp)
      · exact ⟨x, q, rfl⟩
    have hA' : s.attempts.map Prod.snd = done ++ [x] := by
      simpa [pendBit, hp, hq] using hA
    have hAl' : s.attempts.length = s.comps + 1 := by
      simpa [pendBit, hp] using hAl
    have hE' : s.enqd = (done ++ [x]) ++ q := by simp [hE, hq]
    cases q with
    | nil =>
      have hstep : step s (.completeOk t) =
          { s with pending := false, queue := [], comps := s.comps + 1 } := by
        simp [step, perform_attempt, hq]
      rw [hstep]
      refine ⟨hconn, ⟨done ++ [x], ?_, ?_, ?_, ?_⟩, fun _ => rfl, ?_⟩
      · simpa using hE'
      · simp [hdl]
      · simpa [pendBit] using hA'
      · simpa [pendBit] using hAl'
      · intro h; simp at h
    | cons y q' =>
      have hstep : step s (.completeOk t) =
          { s with pending := true, queue := y :: q', comps := s.comps + 1,
                   attempts := s.attempts ++ [(t, y)] } := by
        simp [step, perform_attempt, hq, hconn]
      rw [hstep]
      refine ⟨hconn, ⟨done ++ [x], ?_, ?_, ?_, ?_⟩, ?_, ?_⟩
      · simpa using hE'
      · simp [hdl]
      · simp [pendBit, hA']
      · simp [pendBit, hAl']
      · intro h; simp at h
      · intro _; simp
  | timerFire t =>
    by_cases hp : s.pending
    · have hstep : step s (.timerFire t) = s := by simp [step, perform_attempt, hp]
      rw [hstep]
      exact ⟨hconn, ⟨done, hE, hdl, hA, hAl⟩, hqe, hqne⟩
    · have hq : s.queue = [] := hqe (by simpa using hp)
      have hstep : step s (.timerFire t) = s := by
        simp [step, perform_attempt, hp, hq]
      rw [hstep]
      exact ⟨hconn, ⟨done, hE, hdl, hA, hAl⟩, hqe, hqne⟩

lemma succInv_run : ∀ (es : List Ev) (t0 : Nat) (s : SockState),
    es.all successEv = true → validFrom t0 s es = true → SuccInv s →
    SuccInv (run s es)
  | [], _, _, _, _, hI => hI
  | e :: es, t0, s, hall, hv, hI => by
    rw [List.all_cons, Bool.and_eq_true] at hall
    simp only [validFrom, Bool.and_eq_true] at hv
    rw [run_cons]
    exact succInv_run es e.time (step s e) hall.2 hv.2
      (succInv_step s e hall.1 hv.1.2 hI)

lemma validFrom_append : ∀ (es₁ es₂ : List Ev) (t0 : Nat) (s : SockState),
    validFrom t0 s (es₁ ++ es₂) = true → validFrom t0 s es₁ = true
  | [], _, _, _, _ => rfl
  | e :: es₁, es₂, t0, s, hv => by
    simp only [List.cons_append, validFrom, Bool.and_eq_true] at hv ⊢
    exact ⟨hv.1, validFrom_append es₁ es₂ e.time (step s e) hv.2⟩

/-- A concrete always-success schedule: two enqueues answered by two success
completions. -/
def c2trace : List Ev :=
  [.enq 0 [1], .enq 1 [2], .completeOk 2, .completeOk 3]

/-- From an idle state whose queue head is `b`, the first transmission any
valid continuation starts carries exactly `b`: the head can only be popped by
a success completion, which would require an attempt to have been started
first. -/
lemma first_attempt_is_head : ∀ (es : List Ev) (t0 : Nat) (s : SockState)
    (b : Buf) (r : List Buf),
    validFrom t0 s es = true → s.pending = false → s.queue = b :: r →
    (run s es).attempts = s.attempts ∨
    ∃ t ext, (run s es).attempts = s.attempts ++ (t, b) :: ext
  | [], _, _, _, _, _, _, _ => Or.inl rfl
  | e :: es, t0, s, b, r, hv, hp, hq => by
    simp only [validFrom, Bool.and_eq_true] at hv
    obtain ⟨⟨-, hev⟩, hrest⟩ := hv
    rw [run_cons]
    cases e with
    | completeOk t => rw [evValid, hp] at hev; cases hev
    | completeFail t => rw [evValid, hp] at hev; cases hev
    | completeFailConn t => rw [evValid, hp] at hev; cases hev
    | connectOk t =>
      have hstep : step s (.connectOk t) =
          { s with connected := true, connecting := false } := rfl
      rw [hstep] at hrest ⊢
      exact first_attempt_is_head es (Ev.connectOk t).time _ b r hrest hp hq
    | enq t b2 =>
      by_cases hc : s.connected
      · have hstep : step s (.enq t b2) =
            { s with queue := s.queue ++ [b2], enqd := s.enqd ++ [b2],
                     pending := true, attempts := s.attempts ++ [(t, b)] } := by
          simp [step, perform_attempt, hp, hq, hc]
        rw [hstep] at hrest ⊢
        obtain ⟨ext, hx⟩ := run_attempts_extend es _
        refine Or.inr ⟨t, ext, ?_⟩
        rw [hx]; simp
      · have hstep : step s (.enq t b2) =
            { s with queue := s.queue ++ [b2], enqd := s.enqd ++ [b2],
                     expiry := if s.expiry < t then t + 1000 else s.expiry } := by
          simp [step, perform_attempt, hp, hq, hc]
        rw [hstep] at hrest ⊢
        exact first_attempt_is_head es (Ev.enq t b2).time _ b (r ++ [b2]) hrest hp
          (by simp [hq])
    | timerFire t =>
      by_cases hc : s.connected
      · have hstep : step s (.timerFire t) =
            { s with pending := true, attempts := s.attempts ++ [(t, b)] } := by
          simp [step, perform_attempt, hp, hq, hc]
        rw [hstep] at hrest ⊢
        obtain ⟨ext, hx⟩ := run_attempts_extend es _
        refine Or.inr ⟨t, ext, ?_⟩
        rw [hx]; simp
      · have hstep : step s (.timerFire t) =
            { s with expiry := if s.expiry < t then t + 1000 else s.expiry } := by
          simp [step, perform_attempt, hp, hq, hc]
        rw [hstep] at hrest ⊢
        exact first_attempt_is_head es (Ev.timerFire t).time _ b r hrest hp hq

/-- Backoff preservation: in a valid continuation containing no fresh
enqueues, starting either idle with the retry timer armed no earlier than
`t + 250`, or after time `t + 250` altogether, every attempt the run adds is
issued no earlier than `t + 250`. -/
lemma backoff_attempts : ∀ (es : List Ev) (t0 : Nat) (s : SockState) (t : Nat),
    validFrom t0 s es = true → es.all nonEnq = true →
    ((s.pending = false ∧ t + 250 ≤ s.expiry) ∨ t + 250 ≤ t0) →
    ∀ a ∈ (run s es).attempts, a ∈ s.attempts ∨ t + 250 ≤ a.1
  | [], _, _, _, _, _, _, a, ha => Or.inl ha
  | e :: es, t0, s, t, hv, hne, hstart, a, ha => by
    simp only [validFrom, Bool.and_eq_true, decide_eq_true_eq] at hv
    obtain ⟨⟨ht0, hev⟩, hrest⟩ := hv
    rw [List.all_cons, Bool.and_eq_true] at hne
    rw [run_cons] at ha
    -- the step itself adds at most one attempt, at time `e.time`
    have hstepat : ∀ x ∈ (step s e).attempts, x ∈ s.attempts ∨ x.1 = e.time := by
      intro x hx
      rcases step_attempts_or s e with h | ⟨b', h⟩
      · exact Or.inl (h ▸ hx)
      · rw [h, List.mem_append] at hx
        rcases hx with hx | hx
        · exact Or.inl hx
        · simp at hx; exact Or.inr (by rw [hx])
    rcases hstart with ⟨hp, hexp⟩ | hlate
    · cases e with
      | enq te b2 => simp [nonEnq] at hne
      | completeOk te => rw [evValid, hp] at hev; cases hev
      | completeFail te => rw [evValid, hp] at hev; cases hev
      | completeFailConn te => rw [evValid, hp] at hev; cases hev
      | connectOk te =>
        have hstep : step s (.connectOk te) =
            { s with connected := true, connecting := false } := rfl
        have := backoff_attempts es (Ev.connectOk te).time (step s (.connectOk te)) t
          hrest hne.2 (Or.inl (by rw [hstep]; exact ⟨hp, hexp⟩)) a ha
        rcases this with h | h
        · exact Or.inl (by rw [hstep] at h; simpa using h)
        · exact Or.inr h
      | timerFire te =>
        have hte : s.expiry ≤ te := by simpa [evValid] using hev
        have hlate' : t + 250 ≤ te := le_trans hexp hte
        have := backoff_attempts es te (step s (.timerFire te)) t
          hrest hne.2 (Or.inr hlate') a ha
        rcases this with h | h
        · rcases hstepat a h with h' | h'
          · exact Or.inl h'
          · exact Or.inr (by rw [h']; exact hlate')
        · exact Or.inr h
    · have := backoff_attempts es e.time (step s e) t hrest hne.2
        (Or.inr (le_trans hlate ht0)) a ha
      rcases this with h | h
      · rcases hstepat a h with h' | h'
        · exact Or.inl h'
        · exact Or.inr (by rw [h']; exact le_trans hlate ht0)
      · exact Or.inr h

lemma perform_attempt_queue (t : Nat) (s : SockState) :
    (perform_attempt t s).queue = s.queue := by
  rcases perform_attempt_or t s with h | h | h
  · rw [h]
  · obtain ⟨b, r, -, -, -, h⟩ := h; rw [h]
  · obtain ⟨b, r, -, -, -, h⟩ := h; rw [h]

lemma perform_attempt_not_connected (t : Nat) (s : SockState)
    (hc : s.connected = false) :
    (perform_attempt t s).attempts = s.attempts ∧
    (perform_attempt t s).pending = s.pending := by
  rcases perform_attempt_or t s with h | h | h
  · rw [h]; exact ⟨rfl, rfl⟩
  · obtain ⟨b, r, -, -, hcc, -⟩ := h; rw [hc] at hcc; cases hcc
  · obtain ⟨b, r, -, -, -, h⟩ := h; rw [h]; exact ⟨rfl, rfl⟩

/-- Counterexample schedule for the backoff claim: a failure at t=10 followed
by an enqueue at t=20 re-attempts the head immediately; and after the second
failure at t=30 the timer — armed at the first failure for t=260 — retries at
t=260 < 280. -/
def c3trace : List Ev :=
  [.enq 0 [7], .completeFail 10, .enq 20 [8], .completeFail 30, .timerFire 260]

/-- An idle sender state with one retained head buffer and the retry timer
armed for t=260 (as left behind by a failure at t=10). -/
def c3state : SockState :=
  { queue := [[7]], pending := false, expiry := 260, connected := true,
    connecting := false, attempts := [(0, [7])], comps := 1, connects := 0,
    enqd := [[7]] }

/-- A TCP sender mid-send: connected, one attempt in flight on the head of a
two-buffer queue. -/
def c8state : SockState :=
  { queue := [[5], [6]], pending := true, expiry := 0, connected := true,
    connecting := false, attempts := [(1, [5])], comps := 0, connects := 1,
    enqd := [[5], [6]] }

/-- The state after `c8state` suffers a connection-reset completion at t=2:
disconnected, reconnect outstanding, head retained, retry timer armed for
t=252. -/
def c8down : SockState :=
  { queue := [[5], [6]], pending := false, expiry := 252, connected := false,
    connecting := true, attempts := [(1, [5])], comps := 1, connects := 2,
    enqd := [[5], [6]] }

end mdump

open mdump in
/-- C2: for every valid event sequence over a sender whose transport reports
success for every attempt (only enqueues, success completions and timer
fires), once every started attempt's completion has been observed
(`pending = false` at the end), the attempt log lists exactly the enqueued
buffers, in FIFO order and one attempt each; and after every prefix of the
run, the number of started attempts equals the number of observed completions
plus at most the single in-flight attempt guarded by the pending flag. -/
theorem C2_fifo_exactly_once (es : List Ev)
    (hsucc : es.all successEv = true)
    (hvalid : validFrom 0 initUDP es = true)
    (hdone : (run initUDP es).pending = false) :
    ((run initUDP es).attempts.map Prod.snd = (run initUDP es).enqd) ∧
    ((run initUDP es).attempts.length = (run initUDP es).enqd.length) ∧
    (∀ es₁ es₂, es = es₁ ++ es₂ →
       (run initUDP es₁).attempts.length =
         (run initUDP es₁).comps + pendBit (run initUDP es₁)) := by
  obtain ⟨-, ⟨done, hE, hdl, hA, hAl⟩, hqe, -⟩ :=
    succInv_run es 0 initUDP hsucc hvalid succInv_init
  have hq : (run initUDP es).queue = [] := hqe hdone
  have h1 : (run initUDP es).attempts.map Prod.snd = (run initUDP es).enqd := by
    rw [hA, hE, hq]
    simp [pendBit, hdone]
  refine ⟨h1, ?_, ?_⟩
  · have := congrArg List.length h1
    simpa using this
  · intro es₁ es₂ hsplit
    have hs : es₁.all successEv = true := by
      rw [hsplit, List.all_append, Bool.and_eq_true] at hsucc
      exact hsucc.1
    have hv : validFrom 0 initUDP es₁ = true :=
      validFrom_append es₁ es₂ 0 initUDP (hsplit ▸ hvalid)
    obtain ⟨-, ⟨d, -, -, -, hl⟩, -, -⟩ := succInv_run es₁ 0 initUDP hs hv succInv_init
    exact hl

/-- Closed witness for C2 on the concrete schedule `c2trace`. -/
theorem C2_fifo_exactly_once_witness :
    ((mdump.run mdump.initUDP mdump.c2trace).attempts.map Prod.snd =
      (mdump.run mdump.initUDP mdump.c2trace).enqd) ∧
    ((mdump.run mdump.initUDP mdump.c2trace).attempts.length =
      (mdump.run mdump.initUDP mdump.c2trace).enqd.length) ∧
    (∀ es₁ es₂, mdump.c2trace = es₁ ++ es₂ →
       (mdump.run mdump.initUDP es₁).attempts.length =
         (mdump.run mdump.initUDP es₁).comps +
           mdump.pendBit (mdump.run mdump.initUDP es₁)) :=
  C2_fifo_exactly_once mdump.c2trace (by decide) (by decide) (by decide)

/-- C3 counterexample: the claim "attempt k+1 is not issued before the
configured backoff delay (floor 250 ms) has elapsed" fails on the code.  On
the valid schedule `c3trace`, attempt 1 on buffer `[7]` fails at t=10, yet
attempt 2 (same buffer) is issued at t=20 — an `enqueue_send` calls
`perform_attempt` directly, ignoring the armed timer; and after the failure at
t=30 the timer armed at t=260 by the *first* failure retries at t=260, only
230 ms later. -/
theorem C3_backoff_counterexample :
    mdump.validFrom 0 mdump.initUDP mdump.c3trace = true ∧
    (mdump.run mdump.initUDP mdump.c3trace).attempts =
      [(0, [7]), (20, [7]), (260, [7])] ∧
    20 < 10 + 250 ∧ 260 < 30 + 250 := by
  exact ⟨by decide, by decide, by decide, by decide⟩

open mdump in
/-- C3 (amended): a transport-reported failure keeps the head buffer, starts
no attempt, clears the pending flag, and arms the retry timer for `t + 250`
when the timer had already expired; a buffer is removed from the queue only by
a success completion (`on_transmit_succeed`); from an idle state the first
attempt any valid continuation starts transmits the byte-for-byte identical
head buffer; and when no fresh enqueue intervenes and the timer was armed for
`t + 250`, no attempt is issued before `t + 250`. -/
theorem C3_retry_amended :
    (∀ (s : SockState) (t : Nat),
       (step s (Ev.completeFail t)).queue = s.queue ∧
       (step s (Ev.completeFail t)).attempts = s.attempts ∧
       (step s (Ev.completeFail t)).pending = false ∧
       (s.expiry < t → (step s (Ev.completeFail t)).expiry = t + 250)) ∧
    (∀ (s : SockState) (e : Ev),
       (∃ t, e = Ev.completeOk t) ∨ ∃ ext, (step s e).queue = s.queue ++ ext) ∧
    (∀ (es : List Ev) (t0 : Nat) (s : SockState) (b : Buf) (r : List Buf),
       validFrom t0 s es = true → s.pending = false → s.queue = b :: r →
       (run s es).attempts = s.attempts ∨
       ∃ t ext, (run s es).attempts = s.attempts ++ (t, b) :: ext) ∧
    (∀ (es : List Ev) (t0 : Nat) (s : SockState) (t : Nat),
       validFrom t0 s es = true → es.all nonEnq = true →
       s.pending = false → t + 250 ≤ s.expiry →
       ∀ a ∈ (run s es).attempts, a ∈ s.attempts ∨ t + 250 ≤ a.1) := by
  refine ⟨?_, ?_, ?_, ?_⟩
  · intro s t
    refine ⟨rfl, rfl, rfl, fun h => ?_⟩
    simp [step, h]
  · intro s e
    cases e with
    | enq t b => exact Or.inr ⟨[b], by simp [step, perform_attempt_queue]⟩
    | completeOk t => exact Or.inl ⟨t, rfl⟩
    | completeFail t => exact Or.inr ⟨[], by simp [step]⟩
    | completeFailConn t => exact Or.inr ⟨[], by simp [step]⟩
    | timerFire t => exact Or.inr ⟨[], by simp [step, perform_attempt_queue]⟩
    | connectOk t => exact Or.inr ⟨[], by simp [step]⟩
  · exact first_attempt_is_head
  · intro es t0 s t hv hne hp hexp
    exact backoff_attempts es t0 s t hv hne (Or.inl ⟨hp, hexp⟩)

/-- Closed witness for the amended C3: from `c3state` (idle, head `[7]`, timer
armed for t=260 by a failure at t=10), the valid enqueue-free continuation
`[timerFire 260]` both re-attempts exactly the head buffer and issues nothing
before t=260. -/
theorem C3_retry_amended_witness :
    ((mdump.run mdump.c3state [mdump.Ev.timerFire 260]).attempts =
        mdump.c3state.attempts ∨
      ∃ t ext, (mdump.run mdump.c3state [mdump.Ev.timerFire 260]).attempts =
        mdump.c3state.attempts ++ (t, [7]) :: ext) ∧
    (∀ a ∈ (mdump.run mdump.c3state [mdump.Ev.timerFire 260]).attempts,
       a ∈ mdump.c3state.attempts ∨ 10 + 250 ≤ a.1) :=
  ⟨C3_retry_amended.2.2.1 [.timerFire 260] 0 mdump.c3state [7] []
      (by decide) (by decide) (by decide),
   C3_retry_amended.2.2.2 [.timerFire 260] 0 mdump.c3state 10
      (by decide) (by decide) (by decide) (by decide)⟩

open mdump in
/-- C8: a connection-reset / broken-pipe completion (`completeFailConn`)
clears the connected flag, starts an asynchronous reconnect, reports the
transmission failed (pending cleared, head retained, nothing transmitted) and
arms the retry timer; while the connected flag is false, no step transmits
anything and an idle sender stays idle (`attempt_send` refuses immediately);
and from an idle state whose head is the failed buffer, the first attempt any
valid continuation starts — in particular after a successful reconnect —
transmits that same head buffer. -/
theorem C8_tcp_reconnect :
    (∀ (s : SockState) (t : Nat),
       (step s (Ev.completeFailConn t)).connected = false ∧
       (step s (Ev.completeFailConn t)).connecting = true ∧
       (step s (Ev.completeFailConn t)).connects = s.connects + 1 ∧
       (step s (Ev.completeFailConn t)).pending = false ∧
       (step s (Ev.completeFailConn t)).queue = s.queue ∧
       (step s (Ev.completeFailConn t)).attempts = s.attempts ∧
       (s.expiry < t → (step s (Ev.completeFailConn t)).expiry = t + 250)) ∧
    (∀ (s : SockState) (e : Ev), s.connected = false →
       (step s e).attempts = s.attempts ∧
       (s.pending = false → (step s e).pending = false)) ∧
    (∀ (es : List Ev) (t0 : Nat) (s : SockState) (b : Buf) (r : List Buf),
       validFrom t0 s es = true → s.pending = false → s.queue = b :: r →
       (run s es).attempts = s.attempts ∨
       ∃ t ext, (run s es).attempts = s.attempts ++ (t, b) :: ext) := by
  refine ⟨?_, ?_, first_attempt_is_head⟩
  · intro s t
    refine ⟨rfl, rfl, rfl, rfl, rfl, rfl, fun h => ?_⟩
    simp [step, h]
  · intro s e hc
    cases e with
    | enq t b =>
      have h := perform_attempt_not_connected t
        { s with queue := s.queue ++ [b], enqd := s.enqd ++ [b] } (by simpa using hc)
      refine ⟨by simpa [step] using h.1, fun hp => ?_⟩
      have := h.2
      simp only [step]
      simp at this
      rw [this, hp]
    | completeOk t =>
      have h := perform_attempt_not_connected t
        { s with pending := false, queue := s.queue.tail, comps := s.comps + 1 }
        (by simpa using hc)
      refine ⟨by simpa [step] using h.1, fun _ => ?_⟩
      have := h.2
      simp only [step]
      simp at this
      rw [this]
    | completeFail t => exact ⟨rfl, fun _ => rfl⟩
    | completeFailConn t => exact ⟨rfl, fun _ => rfl⟩
    | timerFire t =>
      have h := perform_attempt_not_connected t s hc
      exact ⟨by simpa [step] using h.1, fun hp => by
        have := h.2
        simp only [step]
        rw [this, hp]⟩
    | connectOk t => exact ⟨rfl, fun hp => by simp [step, hp]⟩

/-- Closed witness for C8: the mid-send reset at t=2 from `c8state` produces
`c8down`; an enqueue while disconnected transmits nothing and stays idle; and
the valid continuation "reconnect succeeds at t=4, retry timer fires at
t=252" re-attempts exactly the failed head buffer `[5]`. -/
theorem C8_tcp_reconnect_witness :
    ((mdump.step mdump.c8state (mdump.Ev.completeFailConn 2)).connected = false ∧
     (mdump.step mdump.c8state (mdump.Ev.completeFailConn 2)).connecting = true ∧
     (mdump.step mdump.c8state (mdump.Ev.completeFailConn 2)).connects =
       mdump.c8state.connects + 1 ∧
     (mdump.step mdump.c8state (mdump.Ev.completeFailConn 2)).pending = false ∧
     (mdump.step mdump.c8state (mdump.Ev.completeFailConn 2)).queue =
       mdump.c8state.queue ∧
     (mdump.step mdump.c8state (mdump.Ev.completeFailConn 2)).attempts =
       mdump.c8state.attempts ∧
     (mdump.c8state.expiry < 2 →
       (mdump.step mdump.c8state (mdump.Ev.completeFailConn 2)).expiry = 2 + 250)) ∧
    ((mdump.step mdump.c8down (mdump.Ev.enq 3 [9])).attempts =
       mdump.c8down.attempts ∧
     (mdump.c8down.pending = false →
       (mdump.step mdump.c8down (mdump.Ev.enq 3 [9])).pending = false)) ∧
    ((mdump.run mdump.c8down [mdump.Ev.connectOk 4, mdump.Ev.timerFire 252]).attempts =
        mdump.c8down.attempts ∨
      ∃ t ext,
        (mdump.run mdump.c8down [mdump.Ev.connectOk 4, mdump.Ev.timerFire 252]).attempts =
          mdump.c8down.attempts ++ (t, [5]) :: ext) :=
  ⟨C8_tcp_reconnect.1 mdump.c8state 2,
   C8_tcp_reconnect.2.1 mdump.c8down (mdump.Ev.enq 3 [9]) (by decide),
   C8_tcp_reconnect.2.2 [mdump.Ev.connectOk 4, mdump.Ev.timerFire 252] 2
     mdump.c8down [5] [[6]] (by decide) (by decide) (by decide)⟩

/-- C7 (divergence): the status line `HTTP/1.1 2X4 Bad` — whose second status
character is not a decimal digit — is *accepted* by the digit check (which
rejects only when all three characters are non-digits, `d[0]>9 && d[1]>9 &&
d[2]>9`) and flows on to the body read with code bytes `(2, 40, 4)`; a fully
non-numeric code `xyz` is rejected, and an unsupported version prefix
`HTTP/2.0` fails the version test. -/
theorem C7_nondigit_status_code_accepted :
    http.statusDigits "HTTP/1.1 2X4 Bad".data = some ⟨2, 40, 4⟩ ∧
    http.on_header_recvd "HTTP/1.1 2X4 Bad\r\n\r\n"
        "GET / HTTP/1.1\r\nuser-agent: pdfw-httptarget/1.0\r\n\r\n".data
      = http.HeaderOutcome.readBody ⟨2, 40, 4⟩ [("user-agent", "pdfw-httptarget/1.0")]
          0 http.Framing.untilClose ∧
    http.statusDigits "HTTP/1.1 xyz".data = none ∧
    http.statusVersionOk "HTTP/2.0 200 OK".data = false := by
  refine ⟨rfl, rfl, rfl, rfl⟩
